import Mathlib

/-!
Verification of the FEC ETL job (`main.py`).

The repository is a single scheduled extract-transform-load job:
`fetch_fec_page` pulls one page of campaign-contribution records from the
FEC HTTP API with classified retry/backoff, `insert_bq_rows` commits rows
to BigQuery in bounded chunks, and `refresh_fec_data` drives the
page/period loop, filters and reshapes records, and promotes the staging
table into the final table after each period.

This file is a shallow embedding of that code.  Network responses are
abstracted to a script `Nat → Attempt α` (the classified outcome of the
n-th request attempt), sleeps are recorded instead of performed, the
BigQuery destination is modelled as lists of rows plus a commit oracle,
and log lines are dropped — with one exception: the page-1 statistics
line (main.py lines 202-207) can itself raise `ValueError` when the
page body carries no numeric `pagination.count`, and that crash path is
modelled explicitly by `periodLoopChecked` (the plain `periodLoop` is
its crash-free projection).  ISO date strings are abstracted to their
parse result (`Option (Option Int)`: absent, unparsable, or a parsed
day number, compared in the date order), and float amounts to
rationals; every comparison the code performs on its numeric constants
(30, 1.5, 300, 125, 125.01, the powers of 2 and 1.5 reached within the
retry ceiling) gives the same verdict over floats and over `ℚ`, so the
`ℚ` model matches the Python semantics at every point used here.
-/

namespace FecEtl

/-! ## Page fetcher (`fetch_fec_page`, main.py lines 63-123) -/

/-- Classified outcome of one HTTP request attempt as seen by the
exception handlers of `fetch_fec_page`: a successful JSON payload, an
`HTTPError` with a status code raised by `raise_for_status`, a
transport error (`ReadTimeout` / `ConnectionError`), or any other
exception. -/
inductive Attempt (α : Type) where
  | ok (payload : α)
  | http (status : Nat)
  | transport
  | other
deriving Repr, DecidableEq

/-- How `fetch_fec_page` ends: returning `resp.json()`, re-raising an
`HTTPError`, re-raising an unexpected exception, or raising the
`RuntimeError` after the retry loop is exhausted. -/
inductive FetchResult (α : Type) where
  | payload (d : α)
  | httpError (status : Nat)
  | otherError
  | exhausted
deriving Repr, DecidableEq

/-- Which backoff track a recorded sleep belongs to (the three
`time.sleep` calls of `fetch_fec_page`). -/
inductive SleepKind where
  | rateLimit
  | serverRetry
  | transportRetry
deriving Repr, DecidableEq

/-- `status_code in [500, 502, 503]` (main.py line 99). -/
def isServerStatus (s : Nat) : Bool :=
  s == 500 || s == 502 || s == 503

/-- The retry loop of `fetch_fec_page` (main.py lines 81-121):
`for attempt in range(1, retries + 1)`.  `rem` is the number of loop
iterations left (`retries + 1 - attempt`), `rlWait` is the mutable
`rate_limit_wait` variable (initially 30).  Returns the result together
with the chronological list of sleeps performed.
- 429: sleep `rate_limit_wait`, then `rate_limit_wait = min(rate_limit_wait * 1.5, 300)`, continue;
- 500/502/503: if `attempt < retries`, sleep `5 * attempt` and continue, else fall through to the re-raise;
- other HTTP status: re-raise immediately;
- timeout/connection error: sleep `2 ** attempt` only when `attempt < retries`, and continue either way;
- any other exception: re-raise;
- loop falls off the end: `RuntimeError` (exhausted). -/
def fetchLoop (script : Nat → Attempt α) (retries : Nat) :
    Nat → Nat → ℚ → FetchResult α × List (SleepKind × ℚ)
  | 0, _, _ => (.exhausted, [])
  | rem + 1, attempt, rlWait =>
    match script attempt with
    | .ok d => (.payload d, [])
    | .http status =>
      if status = 429 then
        let r := fetchLoop script retries rem (attempt + 1) (min (rlWait * (3 / 2)) 300)
        (r.1, (SleepKind.rateLimit, rlWait) :: r.2)
      else if isServerStatus status then
        if attempt < retries then
          let r := fetchLoop script retries rem (attempt + 1) rlWait
          (r.1, (SleepKind.serverRetry, (5 * attempt : ℚ)) :: r.2)
        else (.httpError status, [])
      else (.httpError status, [])
    | .transport =>
      if attempt < retries then
        let r := fetchLoop script retries rem (attempt + 1) rlWait
        (r.1, (SleepKind.transportRetry, (2 : ℚ) ^ attempt) :: r.2)
      else fetchLoop script retries rem (attempt + 1) rlWait
    | .other => (.otherError, [])

/-- `fetch_fec_page` (main.py line 63): the loop entered at `attempt = 1`
with `rate_limit_wait = 30`; the source's default retry ceiling is 10. -/
def fetch_fec_page (script : Nat → Attempt α) (retries : Nat) :
    FetchResult α × List (SleepKind × ℚ) :=
  fetchLoop script retries retries 1 30

/-- The default `retries=10` of `fetch_fec_page`. -/
def defaultRetries : Nat := 10

/-- The durations of the rate-limit (429) sleeps of a sleep log, in
order. -/
def rlSleeps (sleeps : List (SleepKind × ℚ)) : List ℚ :=
  sleeps.filterMap fun s =>
    match s.1 with
    | SleepKind.rateLimit => some s.2
    | _ => none

/-! ## Batch loader (`insert_bq_rows`, main.py lines 129-141) -/

/-- `BQ_BATCH_SIZE = 8000` (main.py line 42). -/
def BQ_BATCH_SIZE : Nat := 8000

/-- `for i in range(0, total, n): rows[i : i + n]` (main.py line 133):
the list of consecutive chunks of size `n` (the last one possibly
shorter).  For the `n = 0` never used by the source the definition still
terminates, consuming one element per step. -/
def chunksOf (n : Nat) : List α → List (List α)
  | [] => []
  | x :: xs => ((x :: xs).take n) :: chunksOf n (xs.drop (n - 1))
termination_by l => l.length
decreasing_by
  simp only [List.length_drop, List.length_cons]
  omega

/-- The commit loop of `insert_bq_rows`: `errors = client.insert_rows_json(table, batch)`
is modelled by a commit oracle giving the error detail of a chunk, or
`none` on success.  Returns the chunks committed before the failure, in
order, and the error detail raised (`raise RuntimeError(errors)`), if
any. -/
def insertRun (commit : List β → Option String) : List (List β) → List (List β) × Option String
  | [] => ([], none)
  | c :: cs =>
    match commit c with
    | some e => ([], some e)
    | none =>
      let r := insertRun commit cs
      (c :: r.1, r.2)

/-- `insert_bq_rows` (main.py line 129): split `rows` into chunks of
`BQ_BATCH_SIZE` and commit them in order, failing on the first chunk
whose commit reports errors. -/
def insert_bq_rows (commit : List β → Option String) (rows : List β) :
    List (List β) × Option String :=
  insertRun commit (chunksOf BQ_BATCH_SIZE rows)

/-! ## Record filter / mapper (main.py lines 219-279) -/

/-- The `contribution_receipt_amount` field of a raw record, as the
mapper consumes it: `amt = r.get("contribution_receipt_amount") or 0`
followed by `float(amt)`.  A missing / falsy value becomes `0`, a
numeric value is itself, a non-numeric value makes `float` raise (the
record is then skipped). -/
inductive AmountField where
  | missing
  | num (q : ℚ)
  | bad
deriving Repr, DecidableEq

/-- `float(r.get("contribution_receipt_amount") or 0)`: `none` when the
`float` call raises. -/
def amountValue : AmountField → Option ℚ
  | .missing => some 0
  | .num q => some q
  | .bad => none

/-- A raw FEC contribution record, holding exactly the fields `main.py`
reads.  `contribution_receipt_date` abstracts the ISO date string to its
parse outcome: `none` = absent or falsy (`if not dt_str`), `some none` =
present but `date.fromisoformat` raises, `some (some d)` = parses to the
day `d` (an `Int` in date order). -/
structure FecRecord where
  committee_id : Option String
  report_type : Option String
  line_number_label : Option String
  contribution_receipt_step : Option String
  entity_type : Option String
  contributor_name : Option String
  contributor_street_1 : Option String
  contributor_street_2 : Option String
  contributor_city : Option String
  contributor_state : Option String
  contributor_zip : Option String
  contributor_employer : Option String
  contributor_occupation : Option String
  contribution_receipt_date : Option (Option Int)
  contribution_receipt_amount : AmountField
  transaction_id : Option String
deriving Repr, DecidableEq

/-- One row of the staging/final schema, as built at main.py lines
263-279 (`ind_transaction_dt` keeps the parsed day; the code stores
`dt.isoformat()`, the canonical string of the same date). -/
structure OutputRow where
  cmte_id : Option String
  ind_rpt_tp : Option String
  ind_transaction_tp : Option String
  ind_transaction_pgi : Option String
  ind_entity_tp : Option String
  ind_name : Option String
  ind_street_address : String
  ind_city : Option String
  ind_state : Option String
  ind_zip_code : Option String
  ind_employer : Option String
  ind_occupation : Option String
  ind_transaction_dt : Int
  ind_transaction_amt : ℚ
  ind_tran_id : Option String
deriving Repr, DecidableEq

/-- Python `str.strip()` with no argument: drop leading and trailing
whitespace characters. -/
def pyStrip (s : String) : String :=
  ⟨((s.data.dropWhile Char.isWhitespace).reverse.dropWhile Char.isWhitespace).reverse⟩

/-- Street construction (main.py lines 244-247):
`" ".join([r.get("contributor_street_1") or "", r.get("contributor_street_2") or ""]).strip()`.
A join of a two-element list inserts exactly one separator. -/
def joinStreet (s1 s2 : Option String) : String :=
  pyStrip (s1.getD "" ++ " " ++ s2.getD "")

/-- The output row built from an accepted record (main.py lines
263-279), given its parsed date and amount. -/
def mkRow (r : FecRecord) (dt : Int) (amt : ℚ) : OutputRow where
  cmte_id := r.committee_id
  ind_rpt_tp := r.report_type
  ind_transaction_tp := r.line_number_label
  ind_transaction_pgi := r.contribution_receipt_step
  ind_entity_tp := r.entity_type
  ind_name := r.contributor_name
  ind_street_address := joinStreet r.contributor_street_1 r.contributor_street_2
  ind_city := r.contributor_city
  ind_state := r.contributor_state
  ind_zip_code := r.contributor_zip
  ind_employer := r.contributor_employer
  ind_occupation := r.contributor_occupation
  ind_transaction_dt := dt
  ind_transaction_amt := amt
  ind_tran_id := r.transaction_id

/-- What the body of `for r in results:` does with one record. -/
inductive RecAction where
  | skip
  | stop
  | keep (row : OutputRow)
deriving Repr, DecidableEq

/-- The filter/mapper decision for one record (main.py lines 219-242):
missing or unparsable date → skip (`continue`); parsed date strictly
before the cutoff → stop the period (`empty_pages = 999; break`);
unparsable amount → skip; amount `<= 125` → skip; otherwise keep the
mapped row. -/
def recordAction (cutoff : Int) (r : FecRecord) : RecAction :=
  match r.contribution_receipt_date with
  | none => .skip
  | some none => .skip
  | some (some dt) =>
    if dt < cutoff then .stop
    else
      match amountValue r.contribution_receipt_amount with
      | none => .skip
      | some amt =>
        if amt ≤ 125 then .skip
        else .keep (mkRow r dt amt)

/-! ## Cycle orchestrator (`refresh_fec_data`, main.py lines 148-347) -/

/-- `BATCH_INSERT_SIZE = 1000` (main.py line 164). -/
def BATCH_INSERT_SIZE : Nat := 1000

/-- `MAX_PAGES_PER_PERIOD = 2000` (main.py line 177). -/
def MAX_PAGES_PER_PERIOD : Nat := 2000

/-- The mutable state of `refresh_fec_data`: the batch buffer, the two
destination tables (as the row lists they hold; a successful
`insert_bq_rows` call appends its rows to staging in order, which is
what the loader theorems below establish for the no-error path), the
two counters, and the advisory `seen_transaction_ids` set (kept as a
duplicate-free list in insertion order). -/
structure EtlState where
  buffer : List OutputRow
  staging : List OutputRow
  final : List OutputRow
  totalInserted : Nat
  totalCollected : Nat
  seen : List String
deriving Repr, DecidableEq

/-- The state after the run-start truncation of staging and final
(main.py lines 153-154) with fresh counters and buffer. -/
def initialState : EtlState :=
  { buffer := [], staging := [], final := [], totalInserted := 0,
    totalCollected := 0, seen := [] }

/-- What the record loop does with a kept row (main.py lines 249-287):
add a truthy `transaction_id` to the seen set, count it, append the row
to the batch buffer, and flush the buffer to staging once it holds
`BATCH_INSERT_SIZE` rows. -/
def pushRow (st : EtlState) (row : OutputRow) : EtlState :=
  let seen :=
    match row.ind_tran_id with
    | some t => if t ≠ "" ∧ t ∉ st.seen then st.seen ++ [t] else st.seen
    | none => st.seen
  let st1 : EtlState :=
    { st with seen := seen, totalCollected := st.totalCollected + 1,
              buffer := st.buffer ++ [row] }
  if BATCH_INSERT_SIZE ≤ st1.buffer.length then
    { st1 with staging := st1.staging ++ st1.buffer,
               totalInserted := st1.totalInserted + st1.buffer.length,
               buffer := [] }
  else st1

/-- `for r in results:` (main.py lines 219-287): process the records of
one page in order; the `Bool` is true when a record older than the
cutoff was hit (`empty_pages = 999; break`), in which case the remaining
records are dropped on the floor. -/
def processResults (cutoff : Int) : List FecRecord → EtlState → EtlState × Bool
  | [], st => (st, false)
  | r :: rs, st =>
    match recordAction cutoff r with
    | .skip => processResults cutoff rs st
    | .stop => (st, true)
    | .keep row => processResults cutoff rs (pushRow st row)

/-- A parsed page body: the `results` array, `pagination.pages`
(`none` when the body has no `pagination` object or it has no `pages`
field; `data.get("pagination", {}).get("pages", 0)` then yields 0),
and `pagination.count` (`none` when the body has no `pagination`
object or it has no numeric `count` field;
`pagination_info.get("count", "?")` then yields the string `"?"`,
which the page-1 statistics line cannot format with the `,`
thousands separator). -/
structure FecData where
  results : List FecRecord
  pages : Option Nat
  count : Option Int
deriving Repr, DecidableEq

/-- What one `fetch_fec_page` call looks like to the orchestrator:
parsed data, or any raised exception (both `except` arms at main.py
lines 189-200 do the same: log, `page += 1`, `continue`). -/
inductive FetchOutcome where
  | success (data : FecData)
  | failure
deriving Repr, DecidableEq

/-- Trace entry for one `fetch_fec_page` call made by the period loop:
the call raised, returned an empty `results` list, or returned a
non-empty one. -/
inductive FetchEvent where
  | failed (page : Nat)
  | emptyPage (page : Nat)
  | dataPage (page : Nat)
deriving Repr, DecidableEq

/-- The `while True:` page loop of one period (main.py lines 179-300),
with `fetch : Nat → FetchOutcome` standing for `fetch_fec_page(period, ·,
min_date)`.  `fuel` bounds the recursion; entered with fuel 2001 it is
never exhausted, because every iteration either stops or moves to page
`page + 1` and the safety guard stops at page 2001.  Returns the updated
state and the trace of fetch calls.  Faithfully in order: safety cap;
fetch (exceptions skip the page); empty-results counting with the
two-empty-pages stop; the record loop with its old-data stop signal
(`empty_pages >= 999`); the last-page check against
`pagination.get("pages", 0)`.  The page-1 statistics block (main.py
lines 202-207) is modelled as logging and dropped here; its ValueError
crash path, taken when the page-1 body carries no numeric `count`, is
modelled by `periodLoopChecked` below, of which this function is the
crash-free projection (see `periodLoopChecked_agrees_high` and
`periodLoopChecked_agrees_entry`). -/
def periodLoop (fetch : Nat → FetchOutcome) (cutoff : Int) :
    Nat → Nat → Nat → EtlState → EtlState × List FetchEvent
  | 0, _, _, st => (st, [])
  | fuel + 1, page, emptyPages, st =>
    if MAX_PAGES_PER_PERIOD < page then (st, [])
    else
      match fetch page with
      | .failure =>
        let r := periodLoop fetch cutoff fuel (page + 1) emptyPages st
        (r.1, .failed page :: r.2)
      | .success d =>
        if d.results.isEmpty then
          if 2 ≤ emptyPages + 1 then (st, [.emptyPage page])
          else if d.pages.getD 0 ≤ page then (st, [.emptyPage page])
          else
            let r := periodLoop fetch cutoff fuel (page + 1) (emptyPages + 1) st
            (r.1, .emptyPage page :: r.2)
        else
          let pr := processResults cutoff d.results st
          if pr.2 then (pr.1, [.dataPage page])
          else if d.pages.getD 0 ≤ page then (pr.1, [.dataPage page])
          else
            let r := periodLoop fetch cutoff fuel (page + 1) 0 pr.1
            (r.1, .dataPage page :: r.2)

/-- The uncaught Python exception the page loop can raise. -/
inductive PyError where
  | valueError
deriving Repr, DecidableEq

/-- The `while True:` page loop including the page-1 statistics block
(main.py lines 202-207) that `periodLoop` drops.  On the first page,
after a successful fetch, the code runs
`print(f"... ~{total_pages} pages, ~{total_count:,} total records ...")`
with `total_count = data.get("pagination", {}).get("count", "?")`;
when the body has no pagination object or no numeric `count`,
`total_count` is the string `"?"` and the `,` format specifier raises
`ValueError: Cannot specify ',' with 's'.`.  No handler in
`refresh_fec_data` encloses that line (the `except` arms wrap only the
fetch call), so the exception propagates and the run dies there,
before `results = data.get("results", [])` is read.  Every other step
is identical to `periodLoop`, with exceptions bubbled through
`Except.map` on the continuing branches. -/
def periodLoopChecked (fetch : Nat → FetchOutcome) (cutoff : Int) :
    Nat → Nat → Nat → EtlState → Except PyError (EtlState × List FetchEvent)
  | 0, _, _, st => Except.ok (st, [])
  | fuel + 1, page, emptyPages, st =>
    if MAX_PAGES_PER_PERIOD < page then Except.ok (st, [])
    else
      match fetch page with
      | .failure =>
        (periodLoopChecked fetch cutoff fuel (page + 1) emptyPages st).map
          (fun r => (r.1, .failed page :: r.2))
      | .success d =>
        if page = 1 ∧ d.count = none then Except.error PyError.valueError
        else if d.results.isEmpty then
          if 2 ≤ emptyPages + 1 then Except.ok (st, [.emptyPage page])
          else if d.pages.getD 0 ≤ page then Except.ok (st, [.emptyPage page])
          else
            (periodLoopChecked fetch cutoff fuel (page + 1) (emptyPages + 1)
              st).map (fun r => (r.1, .emptyPage page :: r.2))
        else
          let pr := processResults cutoff d.results st
          if pr.2 then Except.ok (pr.1, [.dataPage page])
          else if d.pages.getD 0 ≤ page then Except.ok (pr.1, [.dataPage page])
          else
            (periodLoopChecked fetch cutoff fuel (page + 1) 0 pr.1).map
              (fun r => (r.1, .dataPage page :: r.2))

/-- One period of the orchestrator: the page loop from `page = 1`,
`empty_pages = 0`, with enough fuel for the safety cap. -/
def runPeriod (fetch : Nat → FetchOutcome) (cutoff : Int) (st : EtlState) :
    EtlState × List FetchEvent :=
  periodLoop fetch cutoff (MAX_PAGES_PER_PERIOD + 1) 1 0 st

/-- End of one period (main.py lines 302-313): flush a non-empty batch
buffer to staging, then `TRUNCATE` the final table and
`INSERT INTO final SELECT * FROM staging`, i.e. replace final's content
with staging's. -/
def periodEnd (st : EtlState) : EtlState :=
  let st1 : EtlState :=
    if st.buffer = [] then st
    else
      { st with staging := st.staging ++ st.buffer,
                totalInserted := st.totalInserted + st.buffer.length,
                buffer := [] }
  { st1 with final := st1.staging }

/-- The `for period in cycles:` loop (main.py lines 172-313), with
`fetch period page` standing for `fetch_fec_page(period, page, min_date)`.
Besides the end state it returns the state right after each period's
promotion, for stating the per-period invariant. -/
def runPeriods (fetch : Nat → Nat → FetchOutcome) (cutoff : Int) :
    List Nat → EtlState → EtlState × List EtlState
  | [], st => (st, [])
  | period :: rest, st =>
    let stAfter := periodEnd (runPeriod (fetch period) cutoff st).1
    let r := runPeriods fetch cutoff rest stAfter
    (r.1, stAfter :: r.2)

/-- `get_cycles` (main.py lines 47-57): the three most recent completed
two-year cycles for a given current year. -/
def get_cycles (year : Nat) : List Nat :=
  let latest := if year % 2 = 0 then year else year - 1
  [latest, latest - 2, latest - 4]

/-- `refresh_fec_data` (main.py line 148), abstracted over the fetch
oracle, the cutoff date and the cycles: truncate both tables, then run
the periods.  (The trailing buffer flush at lines 318-322 is a no-op:
every period ends with an empty buffer.) -/
def refresh_fec_data (fetch : Nat → Nat → FetchOutcome) (cutoff : Int)
    (cycles : List Nat) : EtlState × List EtlState :=
  runPeriods fetch cutoff cycles initialState

/-! ## Trace predicate and concrete sample inputs -/

/-- Valid continuations of a fetch trace with respect to the
consecutive-empty-pages counter: the flag records whether the previously
fetched page of the period had an empty `results` list
(`empty_pages >= 1`).  Once two adjacent fetches were empty, nothing may
follow (the loop has stopped); a failed fetch leaves the counter alone, a
non-empty page resets it. -/
def okLog : Bool → List FetchEvent → Bool
  | _, [] => true
  | true, .emptyPage _ :: rest => rest.isEmpty
  | false, .emptyPage _ :: rest => okLog true rest
  | b, .failed _ :: rest => okLog b rest
  | _, .dataPage _ :: rest => okLog false rest

/-- A record with every field absent: the date guard skips it before any
other field is read. -/
def blankRecord : FecRecord where
  committee_id := none
  report_type := none
  line_number_label := none
  contribution_receipt_step := none
  entity_type := none
  contributor_name := none
  contributor_street_1 := none
  contributor_street_2 := none
  contributor_city := none
  contributor_state := none
  contributor_zip := none
  contributor_employer := none
  contributor_occupation := none
  contribution_receipt_date := none
  contribution_receipt_amount := AmountField.missing
  transaction_id := none

/-- A record whose receipt date (day `-1`) lies strictly before the
cutoff used in the sample runs (day `0`). -/
def oldRecord : FecRecord :=
  { blankRecord with contribution_receipt_date := some (some (-1)) }

/-- An in-window record (day `5`) with amount `200`, which passes the
amount filter on its own. -/
def keptRecord : FecRecord :=
  { blankRecord with
      contribution_receipt_date := some (some 5),
      contribution_receipt_amount := AmountField.num 200,
      transaction_id := some "T1" }

/-- An in-window record with amount exactly `125.01`. -/
def boundaryRecord : FecRecord :=
  { blankRecord with
      contribution_receipt_date := some (some 5),
      contribution_receipt_amount := AmountField.num (12501 / 100) }

/-- Oracle for the empty-count reset sample: pages 1 and 3 empty, pages
2 and 4 non-empty, the API reporting enough pages that only the stop
rules end the loop (page 4 is the reported last page). -/
def resetFetch : Nat → FetchOutcome
  | 2 => .success { results := [blankRecord], pages := some 10, count := some 900 }
  | 4 => .success { results := [blankRecord], pages := some 4, count := some 900 }
  | _ => .success { results := [], pages := some 10, count := some 900 }

/-- Oracle whose every page is empty while the API reports 10 pages. -/
def twoEmptyFetch : Nat → FetchOutcome
  | _ => .success { results := [], pages := some 10, count := some 900 }

/-- Oracle where fetching page 1 exhausts its retries and page 2
succeeds. -/
def skipPageFetch : Nat → FetchOutcome
  | 2 => .success { results := [blankRecord], pages := some 2, count := some 150 }
  | _ => .failure

/-- Oracle whose page bodies carry no pagination object at all: both
`pages` and `count` are absent. -/
def noPaginationFetch : Nat → FetchOutcome
  | _ => .success { results := [blankRecord], pages := none, count := none }

/-- Oracle whose page bodies carry a pagination object with a numeric
`count` but no `pages` field. -/
def noPagesFieldFetch : Nat → FetchOutcome
  | _ => .success { results := [blankRecord], pages := none, count := some 777 }

/-- Oracle whose first page holds a too-old record followed by a record
that would pass the amount filter, with 50 reported pages. -/
def oldDataFetch : Nat → FetchOutcome
  | _ => .success { results := [oldRecord, keptRecord], pages := some 50,
                    count := some 5000 }

/-- Two-argument oracle (period and page) whose pages are all empty
(well-formed bodies: a pagination object with `pages` and `count`). -/
def blankPagesFetch : Nat → Nat → FetchOutcome :=
  fun _ _ =>
    FetchOutcome.success { results := [], pages := some 1, count := some 0 }

/-- A concrete output row, for exercising the batch loader. -/
def sampleRow : OutputRow where
  cmte_id := none
  ind_rpt_tp := none
  ind_transaction_tp := none
  ind_transaction_pgi := none
  ind_entity_tp := none
  ind_name := none
  ind_street_address := ""
  ind_city := none
  ind_state := none
  ind_zip_code := none
  ind_employer := none
  ind_occupation := none
  ind_transaction_dt := 0
  ind_transaction_amt := 0
  ind_tran_id := none

/-! ## Helper lemmas -/

theorem chunksOf_cons_eq (n : Nat) (hn : 1 ≤ n) (l : List α) (hl : l ≠ []) :
    chunksOf n l = l.take n :: chunksOf n (l.drop n) := by
  cases l with
  | nil => exact absurd rfl hl
  | cons x xs =>
    rw [chunksOf]
    cases n with
    | zero => omega
    | succ m => simp [List.drop_succ_cons]

theorem chunksOf_nil (n : Nat) : chunksOf n ([] : List α) = [] := by
  rw [chunksOf]

theorem chunksOf_flatten_aux (n : Nat) (hn : 1 ≤ n) :
    ∀ (k : Nat) (l : List α), l.length ≤ k → (chunksOf n l).flatten = l := by
  intro k
  induction k with
  | zero =>
    intro l hl
    have : l = [] := List.length_eq_zero.mp (Nat.le_zero.mp hl)
    subst this
    simp [chunksOf_nil]
  | succ k ih =>
    intro l hl
    cases l with
    | nil => simp [chunksOf_nil]
    | cons x xs =>
      rw [chunksOf_cons_eq n hn (x :: xs) (by simp), List.flatten_cons,
        ih ((x :: xs).drop n)
          (by simp only [List.length_drop, List.length_cons] at hl ⊢; omega)]
      exact List.take_append_drop n (x :: xs)

theorem chunksOf_flatten (n : Nat) (hn : 1 ≤ n) (l : List α) :
    (chunksOf n l).flatten = l :=
  chunksOf_flatten_aux n hn l.length l Nat.le.refl

theorem chunksOf_length_le_aux (n : Nat) :
    ∀ (k : Nat) (l : List α), l.length ≤ k → ∀ c ∈ chunksOf n l, c.length ≤ n := by
  intro k
  induction k with
  | zero =>
    intro l hl c hc
    have : l = [] := List.length_eq_zero.mp (Nat.le_zero.mp hl)
    subst this
    simp [chunksOf_nil] at hc
  | succ k ih =>
    intro l hl c hc
    cases l with
    | nil => simp [chunksOf_nil] at hc
    | cons x xs =>
      rw [chunksOf] at hc
      rcases List.mem_cons.mp hc with h | h
      · subst h
        simp [Nat.min_le_left n (x :: xs).length]
      · exact ih (xs.drop (n - 1))
          (by simp only [List.length_drop, List.length_cons] at hl ⊢; omega) c h

theorem chunksOf_length_le (n : Nat) (l : List α) :
    ∀ c ∈ chunksOf n l, c.length ≤ n :=
  chunksOf_length_le_aux n l.length l Nat.le.refl

theorem insertRun_ok (commit : List β → Option String) :
    ∀ cs : List (List β), (∀ c ∈ cs, commit c = none) →
      insertRun commit cs = (cs, none) := by
  intro cs
  induction cs with
  | nil => intro _; rfl
  | cons c cs ih =>
    intro h
    have hc : commit c = none := h c (List.mem_cons_self ..)
    have hrest := ih fun c2 hc2 => h c2 (List.mem_cons_of_mem _ hc2)
    simp [insertRun, hc, hrest]

theorem insertRun_fail (commit : List β → Option String) :
    ∀ (cs1 : List (List β)) (c : List β) (cs2 : List (List β)) (e : String),
      (∀ c2 ∈ cs1, commit c2 = none) → commit c = some e →
      insertRun commit (cs1 ++ c :: cs2) = (cs1, some e) := by
  intro cs1
  induction cs1 with
  | nil =>
    intro c cs2 e _ hc
    simp [insertRun, hc]
  | cons c1 cs1 ih =>
    intro c cs2 e h1 hc
    have hc1 : commit c1 = none := h1 c1 (List.mem_cons_self ..)
    have := ih c cs2 e (fun c2 hc2 => h1 c2 (List.mem_cons_of_mem _ hc2)) hc
    simp [insertRun, hc1, this]

theorem rlCap_step (j : Nat) :
    min (min (30 * (3 / 2 : ℚ) ^ j) 300 * (3 / 2)) 300
      = min (30 * (3 / 2 : ℚ) ^ (j + 1)) 300 := by
  rcases le_total (30 * (3 / 2 : ℚ) ^ j) 300 with h | h
  · rw [min_eq_left h, pow_succ]
    ring_nf
  · have h1 : (300 : ℚ) ≤ 300 * (3 / 2) := by norm_num
    have h2 : (300 : ℚ) ≤ 30 * (3 / 2 : ℚ) ^ (j + 1) := by
      calc (300 : ℚ) ≤ 300 * (3 / 2) := h1
        _ ≤ 30 * (3 / 2 : ℚ) ^ j * (3 / 2) :=
            mul_le_mul_of_nonneg_right h (by norm_num)
        _ = 30 * (3 / 2 : ℚ) ^ (j + 1) := by rw [pow_succ, mul_assoc]
    rw [min_eq_right h, min_eq_right h1, min_eq_right h2]

theorem fetchLoop_ok (script : Nat → Attempt α) (retries rem attempt : Nat)
    (w : ℚ) (d : α) (h : script attempt = Attempt.ok d) :
    fetchLoop script retries (rem + 1) attempt w = (FetchResult.payload d, []) := by
  simp only [fetchLoop, h]

theorem fetchLoop_http429 (script : Nat → Attempt α) (retries rem attempt : Nat)
    (w : ℚ) (h : script attempt = Attempt.http 429) :
    fetchLoop script retries (rem + 1) attempt w
      = ((fetchLoop script retries rem (attempt + 1) (min (w * (3 / 2)) 300)).1,
         (SleepKind.rateLimit, w)
           :: (fetchLoop script retries rem (attempt + 1) (min (w * (3 / 2)) 300)).2) := by
  simp only [fetchLoop, h]
  simp

theorem fetchLoop_httpServer (script : Nat → Attempt α) (retries rem attempt : Nat)
    (w : ℚ) (s : Nat) (h : script attempt = Attempt.http s) (h429 : s ≠ 429)
    (hs : isServerStatus s = true) (hlt : attempt < retries) :
    fetchLoop script retries (rem + 1) attempt w
      = ((fetchLoop script retries rem (attempt + 1) w).1,
         (SleepKind.serverRetry, (5 * attempt : ℚ))
           :: (fetchLoop script retries rem (attempt + 1) w).2) := by
  simp only [fetchLoop, h]
  rw [if_neg h429, if_pos hs, if_pos hlt]

theorem fetchLoop_httpFail (script : Nat → Attempt α) (retries rem attempt : Nat)
    (w : ℚ) (s : Nat) (h : script attempt = Attempt.http s) (h429 : s ≠ 429)
    (hfail : isServerStatus s = false ∨ ¬ attempt < retries) :
    fetchLoop script retries (rem + 1) attempt w = (FetchResult.httpError s, []) := by
  simp only [fetchLoop, h]
  rw [if_neg h429]
  rcases hfail with hs | hlt
  · rw [hs]
    simp
  · by_cases hs : isServerStatus s = true
    · rw [if_pos hs, if_neg hlt]
    · rw [if_neg hs]

theorem fetchLoop_transportRetry (script : Nat → Attempt α)
    (retries rem attempt : Nat) (w : ℚ) (h : script attempt = Attempt.transport)
    (hlt : attempt < retries) :
    fetchLoop script retries (rem + 1) attempt w
      = ((fetchLoop script retries rem (attempt + 1) w).1,
         (SleepKind.transportRetry, (2 : ℚ) ^ attempt)
           :: (fetchLoop script retries rem (attempt + 1) w).2) := by
  simp only [fetchLoop, h]
  rw [if_pos hlt]

theorem fetchLoop_transportLast (script : Nat → Attempt α)
    (retries rem attempt : Nat) (w : ℚ) (h : script attempt = Attempt.transport)
    (hlt : ¬ attempt < retries) :
    fetchLoop script retries (rem + 1) attempt w
      = fetchLoop script retries rem (attempt + 1) w := by
  simp only [fetchLoop, h]
  rw [if_neg hlt]

theorem fetchLoop_otherExc (script : Nat → Attempt α) (retries rem attempt : Nat)
    (w : ℚ) (h : script attempt = Attempt.other) :
    fetchLoop script retries (rem + 1) attempt w = (FetchResult.otherError, []) := by
  simp only [fetchLoop, h]

theorem rlSleeps_cons_rl (w : ℚ) (l : List (SleepKind × ℚ)) :
    rlSleeps ((SleepKind.rateLimit, w) :: l) = w :: rlSleeps l := by
  simp [rlSleeps]

theorem rlSleeps_cons_other (k : SleepKind) (hk : k ≠ SleepKind.rateLimit)
    (w : ℚ) (l : List (SleepKind × ℚ)) :
    rlSleeps ((k, w) :: l) = rlSleeps l := by
  cases k with
  | rateLimit => exact absurd rfl hk
  | serverRetry => simp [rlSleeps]
  | transportRetry => simp [rlSleeps]

/-- The rate-limit waits recorded by the fetch loop, entered with
`rate_limit_wait = min(30 * 1.5^j, 300)`, follow the capped geometric
sequence from index `j` on, whatever the response script does. -/
theorem rlSleeps_fetchLoop (script : Nat → Attempt α) (retries : Nat) :
    ∀ (rem attempt j : Nat),
      ∃ k, rlSleeps (fetchLoop script retries rem attempt
              (min (30 * (3 / 2 : ℚ) ^ j) 300)).2
        = (List.range k).map (fun i => min (30 * (3 / 2 : ℚ) ^ (j + i)) 300) := by
  intro rem
  induction rem with
  | zero =>
    intro attempt j
    exact ⟨0, by rw [fetchLoop]; simp [rlSleeps]⟩
  | succ rem ih =>
    intro attempt j
    cases hscript : script attempt with
    | ok d =>
      rw [fetchLoop_ok script retries rem attempt _ d hscript]
      exact ⟨0, by simp [rlSleeps]⟩
    | http status =>
      by_cases h429 : status = 429
      · subst h429
        rw [fetchLoop_http429 script retries rem attempt _ hscript, rlCap_step j]
        obtain ⟨k, hk⟩ := ih (attempt + 1) (j + 1)
        refine ⟨k + 1, ?_⟩
        rw [rlSleeps_cons_rl, hk, List.range_succ_eq_map, List.map_cons,
          List.map_map]
        congr 1
        apply List.map_congr_left
        intro i _
        simp only [Function.comp_apply, Nat.succ_eq_add_one]
        have he : j + 1 + i = j + (i + 1) := by omega
        rw [he]
      · by_cases hsv : isServerStatus status = true
        · by_cases hlt : attempt < retries
          · rw [fetchLoop_httpServer script retries rem attempt _ status hscript
              h429 hsv hlt]
            obtain ⟨k, hk⟩ := ih (attempt + 1) j
            exact ⟨k, by
              rw [rlSleeps_cons_other SleepKind.serverRetry (by simp) _ _, hk]⟩
          · rw [fetchLoop_httpFail script retries rem attempt _ status hscript
              h429 (Or.inr hlt)]
            exact ⟨0, by simp [rlSleeps]⟩
        · rw [fetchLoop_httpFail script retries rem attempt _ status hscript
            h429 (Or.inl (by simpa using hsv))]
          exact ⟨0, by simp [rlSleeps]⟩
    | transport =>
      by_cases hlt : attempt < retries
      · rw [fetchLoop_transportRetry script retries rem attempt _ hscript hlt]
        obtain ⟨k, hk⟩ := ih (attempt + 1) j
        exact ⟨k, by
          rw [rlSleeps_cons_other SleepKind.transportRetry (by simp) _ _, hk]⟩
      · rw [fetchLoop_transportLast script retries rem attempt _ hscript hlt]
        exact ih (attempt + 1) j
    | other =>
      rw [fetchLoop_otherExc script retries rem attempt _ hscript]
      exact ⟨0, by simp [rlSleeps]⟩

/-- On an all-429 script every attempt sleeps once and the loop ends
exhausted. -/
theorem fetchLoop_all429 (retries : Nat) :
    ∀ (rem attempt : Nat) (w : ℚ),
      (fetchLoop (fun _ => (Attempt.http 429 : Attempt α)) retries rem attempt w).1
          = FetchResult.exhausted
        ∧ (fetchLoop (fun _ => (Attempt.http 429 : Attempt α)) retries rem attempt w).2.length
          = rem := by
  intro rem
  induction rem with
  | zero => intro attempt w; exact ⟨rfl, rfl⟩
  | succ rem ih =>
    intro attempt w
    rw [fetchLoop_http429 _ retries rem attempt w rfl]
    exact ⟨(ih _ _).1, by simp only [List.length_cons, (ih _ _).2]⟩

theorem fetchLoop_all_transport (retries : Nat) (w : ℚ) :
    ∀ (rem attempt : Nat), attempt + rem = retries + 1 →
      fetchLoop (fun _ => (Attempt.transport : Attempt α)) retries rem attempt w
        = (FetchResult.exhausted,
           (List.range' attempt (retries - attempt)).map
             (fun a => (SleepKind.transportRetry, (2 : ℚ) ^ a))) := by
  intro rem
  induction rem with
  | zero =>
    intro attempt h
    have h0 : retries - attempt = 0 := by omega
    rw [fetchLoop, h0]
    simp
  | succ rem ih =>
    intro attempt h
    by_cases hlt : attempt < retries
    · rw [fetchLoop_transportRetry _ retries rem attempt w rfl hlt,
        ih (attempt + 1) (by omega)]
      have hcount : retries - attempt = (retries - (attempt + 1)) + 1 := by omega
      rw [hcount, List.range'_succ, List.map_cons]
    · rw [fetchLoop_transportLast _ retries rem attempt w rfl hlt,
        ih (attempt + 1) (by omega)]
      have h1 : retries - (attempt + 1) = 0 := by omega
      have h2 : retries - attempt = 0 := by omega
      rw [h1, h2]
      simp

theorem fetchLoop_server_then_ok (retries k s : Nat) (p : α) (w : ℚ)
    (hs : isServerStatus s = true) (hk : k < retries) :
    ∀ (rem attempt : Nat), attempt + rem = retries + 1 → attempt ≤ k + 1 →
      fetchLoop (fun n => if n ≤ k then Attempt.http s else Attempt.ok p)
          retries rem attempt w
        = (FetchResult.payload p,
           (List.range' attempt (k + 1 - attempt)).map
             (fun a : Nat => (SleepKind.serverRetry, 5 * (a : ℚ)))) := by
  have hs429 : s ≠ 429 := by
    simp only [isServerStatus, Bool.or_eq_true, beq_iff_eq] at hs
    omega
  intro rem
  induction rem with
  | zero =>
    intro attempt h hak
    omega
  | succ rem ih =>
    intro attempt h hak
    by_cases hattempt : attempt ≤ k
    · rw [fetchLoop_httpServer _ retries rem attempt w s
          (by show (if attempt ≤ k then Attempt.http s else Attempt.ok p)
                = Attempt.http s
              rw [if_pos hattempt])
          hs429 hs (by omega),
        ih (attempt + 1) (by omega) (by omega)]
      have hcount : k + 1 - attempt = (k + 1 - (attempt + 1)) + 1 := by omega
      rw [hcount, List.range'_succ, List.map_cons]
    · rw [fetchLoop_ok _ retries rem attempt w p
          (by show (if attempt ≤ k then Attempt.http s else Attempt.ok p)
                = Attempt.ok p
              rw [if_neg hattempt])]
      have h0 : k + 1 - attempt = 0 := by omega
      rw [h0]
      simp

theorem periodLoop_cap (fetch : Nat → FetchOutcome) (cutoff : Int)
    (fuel page ep : Nat) (st : EtlState)
    (hpage : MAX_PAGES_PER_PERIOD < page) :
    periodLoop fetch cutoff (fuel + 1) page ep st = (st, []) := by
  rw [periodLoop, if_pos hpage]

theorem periodLoop_failure (fetch : Nat → FetchOutcome) (cutoff : Int)
    (fuel page ep : Nat) (st : EtlState)
    (hpage : ¬ MAX_PAGES_PER_PERIOD < page)
    (hf : fetch page = FetchOutcome.failure) :
    periodLoop fetch cutoff (fuel + 1) page ep st
      = ((periodLoop fetch cutoff fuel (page + 1) ep st).1,
         FetchEvent.failed page :: (periodLoop fetch cutoff fuel (page + 1) ep st).2) := by
  simp only [periodLoop, hf]
  rw [if_neg hpage]

theorem periodLoop_empty_stop (fetch : Nat → FetchOutcome) (cutoff : Int)
    (fuel page ep : Nat) (st : EtlState) (d : FecData)
    (hpage : ¬ MAX_PAGES_PER_PERIOD < page)
    (hf : fetch page = FetchOutcome.success d)
    (hres : d.results.isEmpty = true) (hep : 2 ≤ ep + 1) :
    periodLoop fetch cutoff (fuel + 1) page ep st
      = (st, [FetchEvent.emptyPage page]) := by
  simp only [periodLoop, hf]
  rw [if_neg hpage, if_pos hres, if_pos hep]

theorem periodLoop_empty_last (fetch : Nat → FetchOutcome) (cutoff : Int)
    (fuel page ep : Nat) (st : EtlState) (d : FecData)
    (hpage : ¬ MAX_PAGES_PER_PERIOD < page)
    (hf : fetch page = FetchOutcome.success d)
    (hres : d.results.isEmpty = true) (hep : ¬ 2 ≤ ep + 1)
    (hpg : d.pages.getD 0 ≤ page) :
    periodLoop fetch cutoff (fuel + 1) page ep st
      = (st, [FetchEvent.emptyPage page]) := by
  simp only [periodLoop, hf]
  rw [if_neg hpage, if_pos hres, if_neg hep, if_pos hpg]

theorem periodLoop_empty_continue (fetch : Nat → FetchOutcome) (cutoff : Int)
    (fuel page ep : Nat) (st : EtlState) (d : FecData)
    (hpage : ¬ MAX_PAGES_PER_PERIOD < page)
    (hf : fetch page = FetchOutcome.success d)
    (hres : d.results.isEmpty = true) (hep : ¬ 2 ≤ ep + 1)
    (hpg : ¬ d.pages.getD 0 ≤ page) :
    periodLoop fetch cutoff (fuel + 1) page ep st
      = ((periodLoop fetch cutoff fuel (page + 1) (ep + 1) st).1,
         FetchEvent.emptyPage page
           :: (periodLoop fetch cutoff fuel (page + 1) (ep + 1) st).2) := by
  simp only [periodLoop, hf]
  rw [if_neg hpage, if_pos hres, if_neg hep, if_neg hpg]

theorem periodLoop_data_stopOld (fetch : Nat → FetchOutcome) (cutoff : Int)
    (fuel page ep : Nat) (st : EtlState) (d : FecData)
    (hpage : ¬ MAX_PAGES_PER_PERIOD < page)
    (hf : fetch page = FetchOutcome.success d)
    (hres : d.results.isEmpty = false)
    (hstop : (processResults cutoff d.results st).2 = true) :
    periodLoop fetch cutoff (fuel + 1) page ep st
      = ((processResults cutoff d.results st).1, [FetchEvent.dataPage page]) := by
  simp only [periodLoop, hf]
  rw [if_neg hpage, if_neg (by rw [hres]; exact Bool.false_ne_true),
    if_pos hstop]

theorem periodLoop_data_last (fetch : Nat → FetchOutcome) (cutoff : Int)
    (fuel page ep : Nat) (st : EtlState) (d : FecData)
    (hpage : ¬ MAX_PAGES_PER_PERIOD < page)
    (hf : fetch page = FetchOutcome.success d)
    (hres : d.results.isEmpty = false)
    (hstop : (processResults cutoff d.results st).2 = false)
    (hpg : d.pages.getD 0 ≤ page) :
    periodLoop fetch cutoff (fuel + 1) page ep st
      = ((processResults cutoff d.results st).1, [FetchEvent.dataPage page]) := by
  simp only [periodLoop, hf]
  rw [if_neg hpage, if_neg (by rw [hres]; exact Bool.false_ne_true),
    if_neg (by rw [hstop]; exact Bool.false_ne_true), if_pos hpg]

theorem periodLoop_data_continue (fetch : Nat → FetchOutcome) (cutoff : Int)
    (fuel page ep : Nat) (st : EtlState) (d : FecData)
    (hpage : ¬ MAX_PAGES_PER_PERIOD < page)
    (hf : fetch page = FetchOutcome.success d)
    (hres : d.results.isEmpty = false)
    (hstop : (processResults cutoff d.results st).2 = false)
    (hpg : ¬ d.pages.getD 0 ≤ page) :
    periodLoop fetch cutoff (fuel + 1) page ep st
      = ((periodLoop fetch cutoff fuel (page + 1) 0
            (processResults cutoff d.results st).1).1,
         FetchEvent.dataPage page
           :: (periodLoop fetch cutoff fuel (page + 1) 0
                 (processResults cutoff d.results st).1).2) := by
  simp only [periodLoop, hf]
  rw [if_neg hpage, if_neg (by rw [hres]; exact Bool.false_ne_true),
    if_neg (by rw [hstop]; exact Bool.false_ne_true), if_neg hpg]

theorem periodLoopChecked_cap (fetch : Nat → FetchOutcome) (cutoff : Int)
    (fuel page ep : Nat) (st : EtlState)
    (hpage : MAX_PAGES_PER_PERIOD < page) :
    periodLoopChecked fetch cutoff (fuel + 1) page ep st
      = Except.ok (st, []) := by
  rw [periodLoopChecked, if_pos hpage]

theorem periodLoopChecked_failure (fetch : Nat → FetchOutcome) (cutoff : Int)
    (fuel page ep : Nat) (st : EtlState)
    (hpage : ¬ MAX_PAGES_PER_PERIOD < page)
    (hf : fetch page = FetchOutcome.failure) :
    periodLoopChecked fetch cutoff (fuel + 1) page ep st
      = (periodLoopChecked fetch cutoff fuel (page + 1) ep st).map
          (fun r => (r.1, FetchEvent.failed page :: r.2)) := by
  simp only [periodLoopChecked, hf]
  rw [if_neg hpage]

theorem periodLoopChecked_crash (fetch : Nat → FetchOutcome) (cutoff : Int)
    (fuel page ep : Nat) (st : EtlState) (d : FecData)
    (hpage : ¬ MAX_PAGES_PER_PERIOD < page)
    (hf : fetch page = FetchOutcome.success d)
    (h1 : page = 1) (hc : d.count = none) :
    periodLoopChecked fetch cutoff (fuel + 1) page ep st
      = Except.error PyError.valueError := by
  simp only [periodLoopChecked, hf]
  rw [if_neg hpage, if_pos ⟨h1, hc⟩]

theorem periodLoopChecked_empty_stop (fetch : Nat → FetchOutcome)
    (cutoff : Int) (fuel page ep : Nat) (st : EtlState) (d : FecData)
    (hpage : ¬ MAX_PAGES_PER_PERIOD < page)
    (hf : fetch page = FetchOutcome.success d)
    (hnc : ¬ (page = 1 ∧ d.count = none))
    (hres : d.results.isEmpty = true) (hep : 2 ≤ ep + 1) :
    periodLoopChecked fetch cutoff (fuel + 1) page ep st
      = Except.ok (st, [FetchEvent.emptyPage page]) := by
  simp only [periodLoopChecked, hf]
  rw [if_neg hpage, if_neg hnc, if_pos hres, if_pos hep]

theorem periodLoopChecked_empty_last (fetch : Nat → FetchOutcome)
    (cutoff : Int) (fuel page ep : Nat) (st : EtlState) (d : FecData)
    (hpage : ¬ MAX_PAGES_PER_PERIOD < page)
    (hf : fetch page = FetchOutcome.success d)
    (hnc : ¬ (page = 1 ∧ d.count = none))
    (hres : d.results.isEmpty = true) (hep : ¬ 2 ≤ ep + 1)
    (hpg : d.pages.getD 0 ≤ page) :
    periodLoopChecked fetch cutoff (fuel + 1) page ep st
      = Except.ok (st, [FetchEvent.emptyPage page]) := by
  simp only [periodLoopChecked, hf]
  rw [if_neg hpage, if_neg hnc, if_pos hres, if_neg hep, if_pos hpg]

theorem periodLoopChecked_empty_continue (fetch : Nat → FetchOutcome)
    (cutoff : Int) (fuel page ep : Nat) (st : EtlState) (d : FecData)
    (hpage : ¬ MAX_PAGES_PER_PERIOD < page)
    (hf : fetch page = FetchOutcome.success d)
    (hnc : ¬ (page = 1 ∧ d.count = none))
    (hres : d.results.isEmpty = true) (hep : ¬ 2 ≤ ep + 1)
    (hpg : ¬ d.pages.getD 0 ≤ page) :
    periodLoopChecked fetch cutoff (fuel + 1) page ep st
      = (periodLoopChecked fetch cutoff fuel (page + 1) (ep + 1) st).map
          (fun r => (r.1, FetchEvent.emptyPage page :: r.2)) := by
  simp only [periodLoopChecked, hf]
  rw [if_neg hpage, if_neg hnc, if_pos hres, if_neg hep, if_neg hpg]

theorem periodLoopChecked_data_stopOld (fetch : Nat → FetchOutcome)
    (cutoff : Int) (fuel page ep : Nat) (st : EtlState) (d : FecData)
    (hpage : ¬ MAX_PAGES_PER_PERIOD < page)
    (hf : fetch page = FetchOutcome.success d)
    (hnc : ¬ (page = 1 ∧ d.count = none))
    (hres : d.results.isEmpty = false)
    (hstop : (processResults cutoff d.results st).2 = true) :
    periodLoopChecked fetch cutoff (fuel + 1) page ep st
      = Except.ok ((processResults cutoff d.results st).1,
          [FetchEvent.dataPage page]) := by
  simp only [periodLoopChecked, hf]
  rw [if_neg hpage, if_neg hnc,
    if_neg (by rw [hres]; exact Bool.false_ne_true), if_pos hstop]

theorem periodLoopChecked_data_last (fetch : Nat → FetchOutcome)
    (cutoff : Int) (fuel page ep : Nat) (st : EtlState) (d : FecData)
    (hpage : ¬ MAX_PAGES_PER_PERIOD < page)
    (hf : fetch page = FetchOutcome.success d)
    (hnc : ¬ (page = 1 ∧ d.count = none))
    (hres : d.results.isEmpty = false)
    (hstop : (processResults cutoff d.results st).2 = false)
    (hpg : d.pages.getD 0 ≤ page) :
    periodLoopChecked fetch cutoff (fuel + 1) page ep st
      = Except.ok ((processResults cutoff d.results st).1,
          [FetchEvent.dataPage page]) := by
  simp only [periodLoopChecked, hf]
  rw [if_neg hpage, if_neg hnc,
    if_neg (by rw [hres]; exact Bool.false_ne_true),
    if_neg (by rw [hstop]; exact Bool.false_ne_true), if_pos hpg]

theorem periodLoopChecked_data_continue (fetch : Nat → FetchOutcome)
    (cutoff : Int) (fuel page ep : Nat) (st : EtlState) (d : FecData)
    (hpage : ¬ MAX_PAGES_PER_PERIOD < page)
    (hf : fetch page = FetchOutcome.success d)
    (hnc : ¬ (page = 1 ∧ d.count = none))
    (hres : d.results.isEmpty = false)
    (hstop : (processResults cutoff d.results st).2 = false)
    (hpg : ¬ d.pages.getD 0 ≤ page) :
    periodLoopChecked fetch cutoff (fuel + 1) page ep st
      = (periodLoopChecked fetch cutoff fuel (page + 1) 0
            (processResults cutoff d.results st).1).map
          (fun r => (r.1, FetchEvent.dataPage page :: r.2)) := by
  simp only [periodLoopChecked, hf]
  rw [if_neg hpage, if_neg hnc,
    if_neg (by rw [hres]; exact Bool.false_ne_true),
    if_neg (by rw [hstop]; exact Bool.false_ne_true), if_neg hpg]

/-- One non-crashing successful-fetch step preserves agreement between
the checked and the unchecked page loop. -/
theorem periodLoopChecked_success_step (fetch : Nat → FetchOutcome)
    (cutoff : Int) (fuel page ep : Nat) (st : EtlState) (d : FecData)
    (hpage : ¬ MAX_PAGES_PER_PERIOD < page)
    (hf : fetch page = FetchOutcome.success d)
    (hnc : ¬ (page = 1 ∧ d.count = none))
    (hnext : ∀ (ep2 : Nat) (st2 : EtlState),
      periodLoopChecked fetch cutoff fuel (page + 1) ep2 st2
        = Except.ok (periodLoop fetch cutoff fuel (page + 1) ep2 st2)) :
    periodLoopChecked fetch cutoff (fuel + 1) page ep st
      = Except.ok (periodLoop fetch cutoff (fuel + 1) page ep st) := by
  by_cases hres : d.results.isEmpty = true
  · by_cases hep : 2 ≤ ep + 1
    · rw [periodLoopChecked_empty_stop fetch cutoff fuel page ep st d hpage hf
        hnc hres hep,
        periodLoop_empty_stop fetch cutoff fuel page ep st d hpage hf hres hep]
    · by_cases hpg : d.pages.getD 0 ≤ page
      · rw [periodLoopChecked_empty_last fetch cutoff fuel page ep st d hpage
          hf hnc hres hep hpg,
          periodLoop_empty_last fetch cutoff fuel page ep st d hpage hf hres
            hep hpg]
      · rw [periodLoopChecked_empty_continue fetch cutoff fuel page ep st d
          hpage hf hnc hres hep hpg,
          periodLoop_empty_continue fetch cutoff fuel page ep st d hpage hf
            hres hep hpg, hnext (ep + 1) st]
        rfl
  · have hres' : d.results.isEmpty = false := by simpa using hres
    by_cases hstop : (processResults cutoff d.results st).2 = true
    · rw [periodLoopChecked_data_stopOld fetch cutoff fuel page ep st d hpage
        hf hnc hres' hstop,
        periodLoop_data_stopOld fetch cutoff fuel page ep st d hpage hf hres'
          hstop]
    · have hstop' : (processResults cutoff d.results st).2 = false := by
        simpa using hstop
      by_cases hpg : d.pages.getD 0 ≤ page
      · rw [periodLoopChecked_data_last fetch cutoff fuel page ep st d hpage
          hf hnc hres' hstop' hpg,
          periodLoop_data_last fetch cutoff fuel page ep st d hpage hf hres'
            hstop' hpg]
      · rw [periodLoopChecked_data_continue fetch cutoff fuel page ep st d
          hpage hf hnc hres' hstop' hpg,
          periodLoop_data_continue fetch cutoff fuel page ep st d hpage hf
            hres' hstop' hpg,
          hnext 0 (processResults cutoff d.results st).1]
        rfl

/-- Away from page 1 the statistics block never runs, so the checked
loop is exactly `Except.ok` of the unchecked one. -/
theorem periodLoopChecked_agrees_high (fetch : Nat → FetchOutcome)
    (cutoff : Int) :
    ∀ (fuel page ep : Nat) (st : EtlState), 2 ≤ page →
      periodLoopChecked fetch cutoff fuel page ep st
        = Except.ok (periodLoop fetch cutoff fuel page ep st) := by
  intro fuel
  induction fuel with
  | zero =>
    intro page ep st hp
    rw [periodLoopChecked, periodLoop]
  | succ fuel ih =>
    intro page ep st hp
    by_cases hpage : MAX_PAGES_PER_PERIOD < page
    · rw [periodLoopChecked_cap fetch cutoff fuel page ep st hpage,
        periodLoop_cap fetch cutoff fuel page ep st hpage]
    · cases hf : fetch page with
      | failure =>
        rw [periodLoopChecked_failure fetch cutoff fuel page ep st hpage hf,
          periodLoop_failure fetch cutoff fuel page ep st hpage hf,
          ih (page + 1) ep st (by omega)]
        rfl
      | success d =>
        exact periodLoopChecked_success_step fetch cutoff fuel page ep st d
          hpage hf (fun hq => by have := hq.1; omega)
          (fun ep2 st2 => ih (page + 1) ep2 st2 (by omega))

/-- Entered at page 1 with a page-1 body that carries a numeric
`count` whenever the fetch succeeds, the checked loop agrees with the
unchecked one on the whole period. -/
theorem periodLoopChecked_agrees_entry (fetch : Nat → FetchOutcome)
    (cutoff : Int)
    (hsafe : ∀ d, fetch 1 = FetchOutcome.success d → d.count ≠ none) :
    ∀ (fuel ep : Nat) (st : EtlState),
      periodLoopChecked fetch cutoff fuel 1 ep st
        = Except.ok (periodLoop fetch cutoff fuel 1 ep st) := by
  intro fuel ep st
  cases fuel with
  | zero => rw [periodLoopChecked, periodLoop]
  | succ fuel =>
    have hpage : ¬ MAX_PAGES_PER_PERIOD < 1 := by decide
    cases hf : fetch 1 with
    | failure =>
      rw [periodLoopChecked_failure fetch cutoff fuel 1 ep st hpage hf,
        periodLoop_failure fetch cutoff fuel 1 ep st hpage hf,
        periodLoopChecked_agrees_high fetch cutoff fuel (1 + 1) ep st
          (by omega)]
      rfl
    | success d =>
      exact periodLoopChecked_success_step fetch cutoff fuel 1 ep st d hpage
        hf (fun hq => hsafe d hf hq.2)
        (fun ep2 st2 => periodLoopChecked_agrees_high fetch cutoff fuel
          (1 + 1) ep2 st2 (by omega))

/-! ## Claim theorems -/

/-- C4: the batch loader splits its input into consecutive chunks of at
most `BQ_BATCH_SIZE = 8000` rows whose concatenation in order is exactly
the input (no reordering or deduplication); on 8001 rows exactly two
chunks are committed, of 8000 and 1 rows; and when a chunk's commit
reports errors the loader fails immediately with that error detail, the
previously committed chunks remaining committed. -/
theorem c4_batch_loader :
    (∀ rows : List OutputRow, (chunksOf BQ_BATCH_SIZE rows).flatten = rows)
    ∧ (∀ (rows c : List OutputRow),
        c ∈ chunksOf BQ_BATCH_SIZE rows → c.length ≤ BQ_BATCH_SIZE)
    ∧ (∀ (commit : List OutputRow → Option String) (rows : List OutputRow),
        insert_bq_rows commit rows = insertRun commit (chunksOf BQ_BATCH_SIZE rows))
    ∧ (∀ rows : List OutputRow, rows.length = 8001 →
        (insert_bq_rows (fun _ => none) rows).1.map List.length = [8000, 1]
          ∧ (insert_bq_rows (fun _ => none) rows).2 = none)
    ∧ (∀ (commit : List OutputRow → Option String) (cs1 : List (List OutputRow))
        (c : List OutputRow) (cs2 : List (List OutputRow)) (e : String),
        (∀ c2 ∈ cs1, commit c2 = none) → commit c = some e →
        insertRun commit (cs1 ++ c :: cs2) = (cs1, some e)) := by
  refine ⟨fun rows => chunksOf_flatten _ (by decide) rows,
    fun rows c hc => chunksOf_length_le _ rows c hc,
    fun commit rows => rfl, ?_, insertRun_fail⟩
  intro rows hlen
  have hrows : rows ≠ [] := by
    intro h
    rw [h] at hlen
    simp at hlen
  have hdrop : (rows.drop 8000).length = 1 := by
    simp [List.length_drop, hlen]
  have hdrop_ne : rows.drop 8000 ≠ [] := by
    intro h
    rw [h] at hdrop
    simp at hdrop
  have hdrop2 : (rows.drop 8000).drop 8000 = [] := by
    apply List.length_eq_zero.mp
    simp [List.length_drop, hlen]
  have hchunks : chunksOf BQ_BATCH_SIZE rows
      = [rows.take 8000, rows.drop 8000] := by
    rw [chunksOf_cons_eq BQ_BATCH_SIZE (by decide) rows hrows]
    simp only [BQ_BATCH_SIZE]
    rw [chunksOf_cons_eq 8000 (by decide) (rows.drop 8000) hdrop_ne,
      hdrop2, chunksOf_nil]
    congr 2
    exact List.take_of_length_le (by omega)
  rw [insert_bq_rows, hchunks, insertRun_ok _ _ (by intro c _; rfl)]
  constructor
  · simp [List.length_take, hlen, hdrop]
  · rfl

/-- Witness for C4: 8001 identical rows under an always-succeeding
commit give exactly the two commits 8000 + 1, and a commit failing on
the first chunk fails with its error detail and nothing committed. -/
theorem c4_batch_loader_witness :
    ((insert_bq_rows (fun _ => none) (List.replicate 8001 sampleRow)).1.map List.length
        = [8000, 1]
      ∧ (insert_bq_rows (fun _ => none) (List.replicate 8001 sampleRow)).2 = none)
    ∧ insertRun (fun _ => some "bad row") ([] ++ [sampleRow] :: [[sampleRow]])
        = ([], some "bad row") := by
  obtain ⟨-, -, -, h4, h5⟩ := c4_batch_loader
  exact ⟨h4 _ (List.length_replicate 8001 sampleRow),
    h5 (fun _ => some "bad row") [] [sampleRow] [[sampleRow]]
      "bad row" (fun c2 hc2 => absurd hc2 (List.not_mem_nil c2)) rfl⟩

/-- C9: the mapper's street address is the two street fields joined by a
single space and stripped, absent fields read as empty; the spec's
examples evaluate accordingly. -/
theorem c9_street_concatenation :
    (∀ (r : FecRecord) (dt : Int) (amt : ℚ),
      (mkRow r dt amt).ind_street_address
        = joinStreet r.contributor_street_1 r.contributor_street_2)
    ∧ joinStreet (some "123 Main") (some "") = "123 Main"
    ∧ joinStreet (some "") (some "Apt 4") = "Apt 4"
    ∧ joinStreet (some "") (some "") = ""
    ∧ joinStreet none (some "Apt 4") = "Apt 4"
    ∧ joinStreet (some "123 Main") none = "123 Main"
    ∧ joinStreet none none = "" := by
  refine ⟨fun r dt amt => rfl, ?_, ?_, ?_, ?_, ?_, ?_⟩ <;> decide

/-- C6: a record whose parsed amount is at most 125 is never mapped to
an output row, and the concrete in-window record with amount 125.01 is
kept. -/
theorem c6_amount_floor :
    (∀ (cutoff : Int) (r : FecRecord) (q : ℚ),
        amountValue r.contribution_receipt_amount = some q → q ≤ 125 →
        ∀ row, recordAction cutoff r ≠ RecAction.keep row)
    ∧ recordAction 0 boundaryRecord
        = RecAction.keep (mkRow boundaryRecord 5 (12501 / 100)) := by
  constructor
  · intro cutoff r q hq hle row
    unfold recordAction
    cases hd : r.contribution_receipt_date with
    | none => simp
    | some o =>
      cases o with
      | none => simp
      | some dt =>
        by_cases hdt : dt < cutoff
        · simp [hdt]
        · simp [hdt, hq, hle]
  · unfold recordAction
    norm_num [boundaryRecord, blankRecord, amountValue]

/-- Witness for C6: the general exclusion applied to the in-window
record with amount exactly 125 (it is not kept). -/
theorem c6_amount_floor_witness :
    ∀ row, recordAction 0
        { blankRecord with
            contribution_receipt_date := some (some 5),
            contribution_receipt_amount := AmountField.num 125 }
      ≠ RecAction.keep row :=
  c6_amount_floor.1 0 _ 125 rfl (by norm_num)

/-- Records after the first too-old record of a page contribute
nothing: processing stops at that record with the state accumulated
before it. -/
theorem processResults_stop_old (cutoff : Int) :
    ∀ (rs1 : List FecRecord) (r : FecRecord) (rs2 : List FecRecord)
      (st : EtlState) (dt : Int),
      r.contribution_receipt_date = some (some dt) → dt < cutoff →
      (processResults cutoff rs1 st).2 = false →
      processResults cutoff (rs1 ++ r :: rs2) st
        = ((processResults cutoff rs1 st).1, true) := by
  intro rs1
  induction rs1 with
  | nil =>
    intro r rs2 st dt hd hdt _
    have hstop : recordAction cutoff r = RecAction.stop := by
      unfold recordAction
      rw [hd]
      simp [hdt]
    simp only [List.nil_append, processResults, hstop]
  | cons a rs1 ih =>
    intro r rs2 st dt hd hdt hns
    simp only [processResults] at hns
    simp only [List.cons_append, processResults]
    cases ha : recordAction cutoff a with
    | skip =>
      rw [ha] at hns
      exact ih r rs2 st dt hd hdt hns
    | stop =>
      rw [ha] at hns
    | keep row =>
      rw [ha] at hns
      exact ih r rs2 (pushRow st row) dt hd hdt hns

/-- The period loop keeps the invariant `okLog (1 ≤ empty_pages)` on
the trace it is about to produce. -/
theorem okLog_periodLoop (fetch : Nat → FetchOutcome) (cutoff : Int) :
    ∀ (fuel page ep : Nat) (st : EtlState),
      okLog (decide (1 ≤ ep)) (periodLoop fetch cutoff fuel page ep st).2
        = true := by
  intro fuel
  induction fuel with
  | zero =>
    intro page ep st
    rw [periodLoop]
    simp [okLog]
  | succ fuel ih =>
    intro page ep st
    by_cases hpage : MAX_PAGES_PER_PERIOD < page
    · rw [periodLoop_cap fetch cutoff fuel page ep st hpage]
      simp [okLog]
    · cases hf : fetch page with
      | failure =>
        rw [periodLoop_failure fetch cutoff fuel page ep st hpage hf]
        simp only [okLog]
        exact ih (page + 1) ep st
      | success d =>
        by_cases hres : d.results.isEmpty = true
        · by_cases hep : 2 ≤ ep + 1
          · rw [periodLoop_empty_stop fetch cutoff fuel page ep st d hpage hf
              hres hep]
            have h1 : 1 ≤ ep := by omega
            simp [h1, okLog]
          · have hep0 : ep = 0 := by omega
            subst hep0
            by_cases hpg : d.pages.getD 0 ≤ page
            · rw [periodLoop_empty_last fetch cutoff fuel page 0 st d hpage hf
                hres hep hpg]
              simp [okLog]
            · rw [periodLoop_empty_continue fetch cutoff fuel page 0 st d hpage
                hf hres hep hpg]
              simp only [okLog, decide_eq_true_eq]
              have := ih (page + 1) 1 st
              simpa using this
        · have hres' : d.results.isEmpty = false := by
            simpa using hres
          by_cases hstop : (processResults cutoff d.results st).2 = true
          · rw [periodLoop_data_stopOld fetch cutoff fuel page ep st d hpage hf
              hres' hstop]
            cases hb : decide (1 ≤ ep) <;> simp [okLog]
          · have hstop' : (processResults cutoff d.results st).2 = false := by
              simpa using hstop
            by_cases hpg : d.pages.getD 0 ≤ page
            · rw [periodLoop_data_last fetch cutoff fuel page ep st d hpage hf
                hres' hstop' hpg]
              cases hb : decide (1 ≤ ep) <;> simp [okLog]
            · rw [periodLoop_data_continue fetch cutoff fuel page ep st d hpage
                hf hres' hstop' hpg]
              cases hb : decide (1 ≤ ep) <;>
                · simp only [okLog]
                  have := ih (page + 1) 0 (processResults cutoff d.results st).1
                  simpa using this

/-- In a trace satisfying `okLog`, two adjacent empty-page events are
the final two events. -/
theorem okLog_two_empty :
    ∀ (l : List FetchEvent) (b : Bool) (i p q : Nat),
      okLog b l = true → l[i]? = some (FetchEvent.emptyPage p) →
      l[i + 1]? = some (FetchEvent.emptyPage q) → l.length = i + 2 := by
  intro l
  induction l with
  | nil =>
    intro b i p q _ h0 _
    simp at h0
  | cons e rest ih =>
    intro b i p q hok h0 h1
    cases i with
    | zero =>
      simp only [List.getElem?_cons_zero, Option.some_inj] at h0
      subst h0
      simp only [List.getElem?_cons_succ] at h1
      cases b with
      | true =>
        simp only [okLog, List.isEmpty_iff] at hok
        subst hok
        simp at h1
      | false =>
        simp only [okLog] at hok
        cases rest with
        | nil => simp at h1
        | cons e2 rest2 =>
          simp only [List.getElem?_cons_zero, Option.some_inj] at h1
          subst h1
          simp only [okLog, List.isEmpty_iff] at hok
          subst hok
          rfl
    | succ i =>
      simp only [List.getElem?_cons_succ] at h0 h1
      have hlen : rest.length = i + 2 := by
        cases e with
        | emptyPage r =>
          cases b with
          | true =>
            simp only [okLog, List.isEmpty_iff] at hok
            subst hok
            simp at h0
          | false =>
            exact ih true i p q (by simpa [okLog] using hok) h0 h1
        | failed r =>
          exact ih b i p q (by simpa [okLog] using hok) h0 h1
        | dataPage r =>
          exact ih false i p q (by simpa [okLog] using hok) h0 h1
      simp only [List.length_cons, hlen]

/-- C2: a 429 response makes `fetch_fec_page` sleep the current
rate-limit wait and retry; with a 429 followed by a 200 it returns the
200 payload after exactly one 30-second sleep; on every script the
sequence of rate-limit waits is 30 multiplied by 1.5 per rate-limited
attempt and capped at 300, independent of any interleaved
transport-error backoff; and a script of nothing but 429s exhausts the
retry ceiling with one such sleep per attempt. -/
theorem c2_rate_limit_backoff :
    (∀ (α : Type) (p : α),
      fetch_fec_page (fun n => if n = 1 then Attempt.http 429 else Attempt.ok p) 10
        = (FetchResult.payload p, [(SleepKind.rateLimit, 30)]))
    ∧ (∀ (α : Type) (script : Nat → Attempt α) (retries : Nat),
        ∃ k, rlSleeps (fetch_fec_page script retries).2
          = (List.range k).map (fun i => min (30 * (3 / 2 : ℚ) ^ i) 300))
    ∧ (∀ (α : Type) (retries : Nat),
        (fetch_fec_page (fun _ => (Attempt.http 429 : Attempt α)) retries).1
            = FetchResult.exhausted
          ∧ (fetch_fec_page (fun _ => (Attempt.http 429 : Attempt α)) retries).2.length
            = retries) := by
  refine ⟨fun α p => rfl, fun α script retries => ?_, fun α retries =>
    fetchLoop_all429 retries retries 1 30⟩
  have h30 : (30 : ℚ) = min (30 * (3 / 2 : ℚ) ^ (0 : Nat)) 300 := by norm_num
  rw [fetch_fec_page, h30]
  obtain ⟨k, hk⟩ := rlSleeps_fetchLoop script retries retries 1 0
  exact ⟨k, by simpa using hk⟩

/-- C3: transport errors retry with `2 ^ attempt`-second exponential
backoff, sleeping before each attempt but the last, and exhaust into the
retries-exhausted error; 500/502/503 retry with linear `5 * attempt`
backoff until a success inside the ceiling returns its payload; any
other HTTP error status fails immediately with no retry and no sleep. -/
theorem c3_error_classification :
    (∀ (α : Type) (retries : Nat),
      fetch_fec_page (fun _ => (Attempt.transport : Attempt α)) retries
        = (FetchResult.exhausted,
           (List.range' 1 (retries - 1)).map
             (fun a => (SleepKind.transportRetry, (2 : ℚ) ^ a))))
    ∧ (∀ (α : Type) (retries k s : Nat) (p : α),
        isServerStatus s = true → k < retries →
        fetch_fec_page (fun n => if n ≤ k then Attempt.http s else Attempt.ok p)
            retries
          = (FetchResult.payload p,
             (List.range' 1 k).map
               (fun a : Nat => (SleepKind.serverRetry, 5 * (a : ℚ)))))
    ∧ (∀ (α : Type) (script : Nat → Attempt α) (s retries : Nat),
        script 1 = Attempt.http s → s ≠ 429 → isServerStatus s = false →
        1 ≤ retries →
        fetch_fec_page script retries = (FetchResult.httpError s, [])) := by
  refine ⟨fun α retries => ?_, fun α retries k s p hs hk => ?_,
    fun α script s retries h1 h429 hsv hr => ?_⟩
  · rw [fetch_fec_page, fetchLoop_all_transport retries 30 retries 1 (by omega)]
  · rw [fetch_fec_page,
      fetchLoop_server_then_ok retries k s p 30 hs hk retries 1 (by omega)
        (by omega)]
    norm_num
  · obtain ⟨r, rfl⟩ : ∃ r, retries = r + 1 := ⟨retries - 1, by omega⟩
    rw [fetch_fec_page, fetchLoop_httpFail script (r + 1) r 1 30 s h1 h429
      (Or.inl hsv)]

/-- Witness for C3: two 502 responses then a 200 return the payload
after the two linear waits, and a 404 fails immediately with no sleeps
under the default retry ceiling. -/
theorem c3_error_classification_witness :
    fetch_fec_page (fun n => if n ≤ 2 then Attempt.http 502 else Attempt.ok 7) 10
        = (FetchResult.payload 7,
           (List.range' 1 2).map
             (fun a : Nat => (SleepKind.serverRetry, 5 * (a : ℚ))))
      ∧ fetch_fec_page (fun _ => (Attempt.http 404 : Attempt Nat)) 10
        = (FetchResult.httpError 404, []) := by
  obtain ⟨-, h2, h3⟩ := c3_error_classification
  exact ⟨h2 Nat 10 2 502 7 rfl (by decide),
    h3 Nat _ 404 10 rfl (by decide) rfl (by decide)⟩

/-- C1: a record older than the cutoff stops the period at once: the
records after it on the same page are ignored (they contribute nothing
to the state, however large their amounts), and the page loop returns
right there, fetching no later page of the period. -/
theorem c1_old_data_stops_period :
    (∀ (cutoff : Int) (rs1 : List FecRecord) (r : FecRecord)
       (rs2 : List FecRecord) (st : EtlState) (dt : Int),
        r.contribution_receipt_date = some (some dt) → dt < cutoff →
        (processResults cutoff rs1 st).2 = false →
        processResults cutoff (rs1 ++ r :: rs2) st
          = ((processResults cutoff rs1 st).1, true))
    ∧ (∀ (fetch : Nat → FetchOutcome) (cutoff : Int) (fuel page ep : Nat)
       (st : EtlState) (d : FecData),
        page ≤ MAX_PAGES_PER_PERIOD → fetch page = FetchOutcome.success d →
        d.results.isEmpty = false →
        (processResults cutoff d.results st).2 = true →
        periodLoop fetch cutoff (fuel + 1) page ep st
          = ((processResults cutoff d.results st).1,
             [FetchEvent.dataPage page])) := by
  refine ⟨fun cutoff => processResults_stop_old cutoff,
    fun fetch cutoff fuel page ep st d hpage hf hres hstop => ?_⟩
  exact periodLoop_data_stopOld fetch cutoff fuel page ep st d (by omega) hf
    hres hstop

/-- Witness for C1: with a page holding a too-old record followed by a
high-amount record and 50 reported pages, processing stops at the old
record and the loop fetches only page 1. -/
theorem c1_old_data_stops_period_witness :
    processResults 0 ([] ++ oldRecord :: [keptRecord]) initialState
        = (initialState, true)
      ∧ periodLoop oldDataFetch 0 2001 1 0 initialState
        = ((processResults 0 [oldRecord, keptRecord] initialState).1,
           [FetchEvent.dataPage 1]) := by
  obtain ⟨h1, h2⟩ := c1_old_data_stops_period
  exact ⟨h1 0 [] oldRecord [keptRecord] initialState (-1) rfl (by decide) rfl,
    h2 oldDataFetch 0 2000 1 0 initialState
      { results := [oldRecord, keptRecord], pages := some 50,
        count := some 5000 }
      (by decide) rfl rfl rfl⟩

/-- C5: ending a period first flushes a non-empty batch buffer into
staging and then replaces the final table with the whole of staging; in
every run, every state recorded after a period's promotion has
`final = staging` (a complete replace, never a partial merge) and an
empty buffer. -/
theorem c5_staging_promotion :
    (∀ st : EtlState,
      (periodEnd st).staging = st.staging ++ st.buffer
        ∧ (periodEnd st).final = (periodEnd st).staging
        ∧ (periodEnd st).buffer = [])
    ∧ (∀ (fetch : Nat → Nat → FetchOutcome) (cutoff : Int)
       (cycles : List Nat) (st : EtlState),
        ∀ s ∈ (runPeriods fetch cutoff cycles st).2,
          s.final = s.staging ∧ s.buffer = []) := by
  have hpe : ∀ st : EtlState,
      (periodEnd st).staging = st.staging ++ st.buffer
        ∧ (periodEnd st).final = (periodEnd st).staging
        ∧ (periodEnd st).buffer = [] := by
    intro st
    unfold periodEnd
    by_cases hb : st.buffer = [] <;> simp [hb]
  refine ⟨hpe, ?_⟩
  intro fetch cutoff cycles
  induction cycles with
  | nil =>
    intro st s hs
    simp [runPeriods] at hs
  | cons c cycles ih =>
    intro st s hs
    simp only [runPeriods] at hs
    rcases List.mem_cons.mp hs with h | h
    · subst h
      exact ⟨(hpe _).2.1, (hpe _).2.2⟩
    · exact ih _ s h

/-- Witness for C5: the promoted state of a one-period run over empty
pages satisfies the invariant. -/
theorem c5_staging_promotion_witness :
    initialState.final = initialState.staging ∧ initialState.buffer = [] :=
  c5_staging_promotion.2 blankPagesFetch 0 [2024] initialState initialState
    (by decide)

/-- C7: whenever two consecutively fetched pages of a period come back
with empty results, those two fetches are the last ones of the period
(no third page is fetched); and a non-empty page between two empty ones
resets the count, as the concrete empty/data/empty/data trace shows. -/
theorem c7_consecutive_empty_pages :
    (∀ (fetch : Nat → FetchOutcome) (cutoff : Int) (fuel page ep : Nat)
       (st : EtlState) (i p q : Nat),
        ((periodLoop fetch cutoff fuel page ep st).2)[i]?
            = some (FetchEvent.emptyPage p) →
        ((periodLoop fetch cutoff fuel page ep st).2)[i + 1]?
            = some (FetchEvent.emptyPage q) →
        (periodLoop fetch cutoff fuel page ep st).2.length = i + 2)
    ∧ (runPeriod resetFetch 0 initialState).2
        = [FetchEvent.emptyPage 1, FetchEvent.dataPage 2,
           FetchEvent.emptyPage 3, FetchEvent.dataPage 4] := by
  constructor
  · intro fetch cutoff fuel page ep st i p q h0 h1
    exact okLog_two_empty _ _ i p q
      (okLog_periodLoop fetch cutoff fuel page ep st) h0 h1
  · rfl

/-- Witness for C7: with every page empty, the period's trace has
exactly two entries. -/
theorem c7_consecutive_empty_pages_witness :
    (periodLoop twoEmptyFetch 0 2001 1 0 initialState).2.length = 0 + 2 :=
  c7_consecutive_empty_pages.1 twoEmptyFetch 0 2001 1 0 initialState 0 1 2
    (by decide) (by decide)

/-- C8: a fetch that fails after its retries does not abort the period:
the loop records the failure, advances to the next page number and
continues there; concretely, a failed page 1 is followed by a processed
page 2. -/
theorem c8_fetch_failure_skips_page :
    (∀ (fetch : Nat → FetchOutcome) (cutoff : Int) (fuel page ep : Nat)
       (st : EtlState),
        page ≤ MAX_PAGES_PER_PERIOD → fetch page = FetchOutcome.failure →
        periodLoop fetch cutoff (fuel + 1) page ep st
          = ((periodLoop fetch cutoff fuel (page + 1) ep st).1,
             FetchEvent.failed page
               :: (periodLoop fetch cutoff fuel (page + 1) ep st).2))
    ∧ (runPeriod skipPageFetch 0 initialState).2
        = [FetchEvent.failed 1, FetchEvent.dataPage 2] := by
  constructor
  · intro fetch cutoff fuel page ep st hpage hf
    exact periodLoop_failure fetch cutoff fuel page ep st (by omega) hf
  · rfl

/-- Witness for C8: the failing page 1 of the concrete oracle is
skipped and the loop proceeds from page 2. -/
theorem c8_fetch_failure_skips_page_witness :
    periodLoop skipPageFetch 0 2001 1 0 initialState
      = ((periodLoop skipPageFetch 0 2000 2 0 initialState).1,
         FetchEvent.failed 1
           :: (periodLoop skipPageFetch 0 2000 2 0 initialState).2) :=
  c8_fetch_failure_skips_page.1 skipPageFetch 0 2000 1 0 initialState
    (by decide) rfl

/-- Counterexample for C10 as frozen: at the explicit input of a
non-empty page-1 body with no pagination object (a case the claim
covers), the run raises ValueError from the page-1 statistics line
(main.py lines 202-207) instead of stopping the period gracefully
after the page with its results processed. -/
theorem c10_missing_pagination_counterexample :
    periodLoopChecked noPaginationFetch 0 2001 1 0 initialState
        = Except.error PyError.valueError
      ∧ periodLoopChecked noPaginationFetch 0 2001 1 0 initialState
        ≠ Except.ok ((processResults 0 [blankRecord] initialState).1,
            [FetchEvent.dataPage 1]) := by
  have h : periodLoopChecked noPaginationFetch 0 2001 1 0 initialState
      = Except.error PyError.valueError := rfl
  refine ⟨h, ?_⟩
  rw [h]
  intro hc
  exact Except.noConfusion hc

/-- C10 (amended): a page body with no pagination object or no `pages`
field reads as 0 reported pages, so the last-page check holds at any
page number and the period stops right after that page even though its
results were non-empty — except when that page is page 1 and the body
also lacks a numeric `count` (in particular when the pagination object
is missing entirely): then the page-1 statistics line raises
ValueError and the run crashes before the results of that page are
processed. -/
theorem c10_missing_pagination_stops :
    (∀ (fetch : Nat → FetchOutcome) (cutoff : Int) (fuel page ep : Nat)
       (st : EtlState) (d : FecData),
        page ≤ MAX_PAGES_PER_PERIOD → fetch page = FetchOutcome.success d →
        d.pages = none → (page = 1 → d.count ≠ none) →
        d.results.isEmpty = false →
        (processResults cutoff d.results st).2 = false →
        periodLoopChecked fetch cutoff (fuel + 1) page ep st
          = Except.ok ((processResults cutoff d.results st).1,
              [FetchEvent.dataPage page]))
    ∧ (∀ (fetch : Nat → FetchOutcome) (cutoff : Int) (fuel ep : Nat)
       (st : EtlState) (d : FecData),
        fetch 1 = FetchOutcome.success d → d.count = none →
        periodLoopChecked fetch cutoff (fuel + 1) 1 ep st
          = Except.error PyError.valueError) := by
  constructor
  · intro fetch cutoff fuel page ep st d hpage hf hpgnone hcount hres hstop
    exact periodLoopChecked_data_last fetch cutoff fuel page ep st d
      (by omega) hf (fun hq => hcount hq.1 hq.2) hres hstop
      (by simp [hpgnone])
  · intro fetch cutoff fuel ep st d hf hc
    exact periodLoopChecked_crash fetch cutoff fuel 1 ep st d (by decide) hf
      rfl hc

/-- Witness for C10: page 1 whose pagination object lacks only `pages`
stops the period right after page 1 with its results processed, while
page 1 with no pagination object at all crashes the run. -/
theorem c10_missing_pagination_stops_witness :
    periodLoopChecked noPagesFieldFetch 0 2001 1 0 initialState
        = Except.ok ((processResults 0 [blankRecord] initialState).1,
            [FetchEvent.dataPage 1])
      ∧ periodLoopChecked noPaginationFetch 0 2001 1 1 initialState
        = Except.error PyError.valueError := by
  obtain ⟨ha, hb⟩ := c10_missing_pagination_stops
  exact ⟨ha noPagesFieldFetch 0 2000 1 0 initialState
      { results := [blankRecord], pages := none, count := some 777 }
      (by decide) rfl rfl (fun _ => by simp) rfl rfl,
    hb noPaginationFetch 0 2000 1 initialState
      { results := [blankRecord], pages := none, count := none } rfl rfl⟩

end FecEtl
